import Mathlib

/-!
Verification of the cloudtag index-allocation protocol.

The repository contains two revisions of `main.go`. The allocation core
consists of `findIndex` / `allocateIndex` (the Index Allocator) and
`get` / `put` / `etcdUrl` (the Coordination Client). We embed the core at
three levels:

* `Cloudtag.StoreM`: the allocator run against an abstract well-behaved
  store (a partial map from slot index to recorded value), with the store
  threaded through `put` (atomic create-if-absent) and a ghost trace of
  the indices read and the indices on which a create was attempted.
* `Cloudtag.V1` / `Cloudtag.V2`: the allocator run against response
  oracles that may also return protocol errors, one namespace per source
  revision (the two revisions differ in `findIndex`: the first returns a
  `get` error to the caller, the second swallows it and returns index 0
  with no error).
* `Cloudtag.Http`: the HTTP-level `get` and `put`, with store responses
  given as values of inductive types (status code, parsed body, redirect
  location), including the bounded redirect-follow loop of `put`.
-/

set_option autoImplicit false

namespace Cloudtag

/-- Constant `maxMachineIndex` from the source: the exclusive namespace bound. -/
def maxMachineIndex : Nat := 100

/-- Constant `maxEtcdRedirects` from the source: the redirect-follow bound. -/
def maxEtcdRedirects : Nat := 10

/-- The exhaustion message of `allocateIndex`. -/
def allocErr : String :=
  "Cannot allocate machine index - all slots are busy, checked " ++
    toString maxMachineIndex ++ " slots"

/-- The exhaustion message of `findIndex`. -/
def findErr : String :=
  "Cannot find machine index - all slots are busy, checked " ++
    toString maxMachineIndex ++ " slots"

/-- A store state: the value recorded at each slot index, `none` if the
slot is absent. -/
def Store : Type := Nat → Option String

namespace StoreM

/-- What the source `get` hands to `findIndex` on a well-behaved store:
the recorded value, with both a 404 reply and an empty recorded value
surfacing as the empty string. -/
def get (s : Store) (i : Nat) : String := (s i).getD ""

/-- The source `put` against a well-behaved store: the conditional create
with `prevExist=false` succeeds exactly when the slot is absent, and never
overwrites an existing slot. -/
def put (mid : String) (i : Nat) (s : Store) : Bool × Store :=
  match s i with
  | some _ => (false, s)
  | none => (true, fun j => if j = i then some mid else s j)

/-- Result of a successful allocation: the returned index, the resulting
store state, and ghost traces of the slot indices read during the scan and
the slot indices on which a conditional create was attempted. -/
structure Res where
  index : Nat
  store : Store
  reads : List Nat
  writes : List Nat

/-- Function `allocateIndex` from the source (claim phase): try a conditional
create on each slot from `i` up to the bound, returning the first slot
created, else the exhaustion error. -/
def allocateIndex (mid : String) (s : Store) (i : Nat) : Except String Res :=
  if h : i < maxMachineIndex then
    match put mid i s with
    | (true, s2) => .ok ⟨i, s2, [], [i]⟩
    | (false, s2) =>
      (allocateIndex mid s2 (i + 1)).map (fun r => { r with writes := i :: r.writes })
  else .error allocErr
termination_by maxMachineIndex - i
decreasing_by omega

/-- The loop body of `findIndex` from the source (scan phase), started at
slot `i`: read the slot; if it holds `mid`, rediscovery succeeds; if it
reads as empty, hand off to the claim phase at `i`; otherwise continue. -/
def findIndexAux (mid : String) (s : Store) (i : Nat) : Except String Res :=
  if h : i < maxMachineIndex then
    let maybe := get s i
    if maybe = mid then .ok ⟨i, s, [i], []⟩
    else if maybe = "" then
      (allocateIndex mid s i).map (fun r => { r with reads := [i] })
    else
      (findIndexAux mid s (i + 1)).map (fun r => { r with reads := i :: r.reads })
  else .error findErr
termination_by maxMachineIndex - i
decreasing_by omega

/-- Function `findIndex` from the source: the scan starts at slot 1. -/
def findIndex (mid : String) (s : Store) : Except String Res :=
  findIndexAux mid s 1

end StoreM

/-- Function `allocateIndex` run against a `put` response oracle that may return a
protocol error (identical in both source revisions): an error aborts, a
created slot returns its index, a lost race continues. -/
def allocateIndexO (p : Nat → Except String Bool) (i : Nat) : Except String Nat :=
  if h : i < maxMachineIndex then
    match p i with
    | .error e => .error e
    | .ok true => .ok i
    | .ok false => allocateIndexO p (i + 1)
  else .error allocErr
termination_by maxMachineIndex - i
decreasing_by omega

namespace V1

/-- The `findIndex` scan of the first source revision, against `get` and
`put` response oracles: a `get` error is returned to the caller. -/
def findIndexAux (mid : String) (g : Nat → Except String String)
    (p : Nat → Except String Bool) (i : Nat) : Except String Nat :=
  if h : i < maxMachineIndex then
    match g i with
    | .error e => .error e
    | .ok maybe =>
      if maybe = mid then .ok i
      else if maybe = "" then allocateIndexO p i
      else findIndexAux mid g p (i + 1)
  else .error findErr
termination_by maxMachineIndex - i
decreasing_by omega

/-- Function `findIndex` of the first source revision. -/
def findIndex (mid : String) (g : Nat → Except String String)
    (p : Nat → Except String Bool) : Except String Nat :=
  findIndexAux mid g p 1

end V1

namespace V2

/-- The `findIndex` scan of the second source revision: on a `get` error
it executes `return 0, nil`, i.e. reports success with index 0. -/
def findIndexAux (mid : String) (g : Nat → Except String String)
    (p : Nat → Except String Bool) (i : Nat) : Except String Nat :=
  if h : i < maxMachineIndex then
    match g i with
    | .error _ => .ok 0
    | .ok maybe =>
      if maybe = mid then .ok i
      else if maybe = "" then allocateIndexO p i
      else findIndexAux mid g p (i + 1)
  else .error findErr
termination_by maxMachineIndex - i
decreasing_by omega

/-- Function `findIndex` of the second source revision. -/
def findIndex (mid : String) (g : Nat → Except String String)
    (p : Nat → Except String Bool) : Except String Nat :=
  findIndexAux mid g p 1

end V2

namespace Http

/-- Structure `EtcdNode` from the source: the key and value of a store entry. -/
structure EtcdNode where
  key : String
  value : String

/-- Structure `EtcdOp` from the source: the parsed JSON envelope of a reply. -/
structure EtcdOp where
  action : String
  node : EtcdNode

/-- The message of the unclassified-status error (the source formats the
whole response; we keep the status code). -/
def unknownReplyMsg (status : Nat) : String :=
  "Don\x27t know how to handle ETCD reply " ++ toString status

/-- A store response to a read: either a network-level failure of
`http.Get`, or a reply carrying a status code and the result of reading
and unmarshalling the body. -/
inductive GetResp where
  | netErr (e : String)
  | reply (status : Nat) (body : Except String EtcdOp)

/-- Function `get` from the source, on a response: a network error propagates; a
404 reply yields the empty value with no error; any status other than 200
is an unclassified protocol error; a body read/parse failure propagates;
otherwise the reply value of the parsed envelope is returned. -/
def get (r : GetResp) : Except String String :=
  match r with
  | .netErr e => .error e
  | .reply status body =>
    if status = 404 then .ok ""
    else if status ≠ 200 then .error (unknownReplyMsg status)
    else
      match body with
      | .error e => .error e
      | .ok j => .ok j.node.value

/-- A store response to one conditional-create request: either a
network-level failure of `Do`, or a reply with a status code and the
result of `res.Location()` (consulted only on a 307 reply). -/
inductive PutResp where
  | netErr (e : String)
  | reply (status : Nat) (loc : Except String String)

/-- The redirect-bound error message of `put`. -/
def tooMuchMsg (url : String) : String :=
  "Too much redirects (" ++ toString maxEtcdRedirects ++
    ") from ETCD while creating key " ++ url

/-- The `for put` loop of the source `put`, with `resp n` the store's
response to the `n`-th request issued (the source increments its
`redirects` counter exactly when it loops, so the counter doubles as the
request number). Exceeding the redirect bound is a fatal error; a 307
reply re-issues the request against the `Location` of the reply;
afterwards a 412 reply yields `created=false` with no error, a 201 reply
yields `created=true`, and anything else is an unclassified error. -/
def putLoop (mid : String) (resp : Nat → PutResp) (redirects : Nat)
    (url : String) : Except String Bool :=
  if h : redirects > maxEtcdRedirects then .error (tooMuchMsg url)
  else
    match resp redirects with
    | .netErr e => .error e
    | .reply status loc =>
      if status = 307 then
        match loc with
        | .error e => .error e
        | .ok newUrl => putLoop mid resp (redirects + 1) newUrl
      else if status = 412 then .ok false
      else if status ≠ 201 then .error (unknownReplyMsg status)
      else .ok true
termination_by maxEtcdRedirects + 1 - redirects
decreasing_by omega

/-- Function `put` from the source: the loop starts with zero redirects followed,
at the originally computed URL. -/
def put (mid : String) (resp : Nat → PutResp) (url : String) : Except String Bool :=
  putLoop mid resp 0 url

/-- Function `etcdUrl` from the source: the URL addressed by both `get` and
`put` for a given configuration and slot index. -/
def etcdUrl (etcdAddress etcdPre tagPre tagName : String) (index : Nat) : String :=
  "http://" ++ etcdAddress ++ "/v2/keys" ++ etcdPre ++ "/" ++ tagPre ++
    tagName ++ "/" ++ toString index

/-- The URL the source `get` computes for a slot index. -/
def getUrl (etcdAddress etcdPre tagPre tagName : String) (index : Nat) : String :=
  etcdUrl etcdAddress etcdPre tagPre tagName index

/-- The URL the source `put` computes for a slot index: the same URL with
the must-not-exist precondition appended. -/
def putUrl (etcdAddress etcdPre tagPre tagName : String) (index : Nat) : String :=
  etcdUrl etcdAddress etcdPre tagPre tagName index ++ "?prevExist=false"

/-- The key path of the spec's wire contract, written from the spec's
words: a key space rooted at a configurable directory, addressed by the
directory, the value-naming prefix, the tag name and the index. -/
def keyPathSpec (dir valuePre tagName : String) (index : Nat) : String :=
  dir ++ "/" ++ valuePre ++ tagName ++ "/" ++ toString index

end Http

end Cloudtag

namespace Cloudtag

/-! ### Helper lemmas -/

theorem except_map_ok {ε α β : Type} (f : α → β) (a : α) :
    (Except.ok a : Except ε α).map f = .ok (f a) := rfl

theorem except_map_error {ε α β : Type} (f : α → β) (e : ε) :
    (Except.error e : Except ε α).map f = .error e := rfl

theorem except_map_map {ε α β γ : Type} (f : α → β) (g : β → γ) (e : Except ε α) :
    (e.map f).map g = e.map (fun a => g (f a)) := by
  cases e <;> rfl

theorem except_map_id {ε α : Type} (e : Except ε α) : e.map (fun a => a) = e := by
  cases e <;> rfl

/-! ### C4: error propagation during the scan -/

/-- C4: the two source revisions diverge on a store-communication error
during the scan. At the concrete input where the read of slot 1 fails
with a network error, the second revision's `findIndex` returns index 0
with no error, while the first revision's `findIndex` returns the error
to its caller, as the claim states. -/
theorem scan_error_swallowed_in_v2 :
    V2.findIndex "m" (fun _ => .error "connection refused") (fun _ => .ok true) = .ok 0 ∧
    V1.findIndex "m" (fun _ => .error "connection refused") (fun _ => .ok true) =
      .error "connection refused" := by
  constructor <;>
    simp [V1.findIndex, V2.findIndex, V1.findIndexAux, V2.findIndexAux, maxMachineIndex]

/-! ### C9: key addressing -/

/-- C9: for every configuration and index, the URL the source `get`
computes is the store root followed by the key path
`{prefix}/{value-naming-prefix}{tag-name}/{index}` of the spec's wire
contract, and the URL the source `put` computes is the same with the
must-not-exist precondition appended — so read and conditional create for
the same index always target the same key. -/
theorem key_addressing (etcdAddress etcdPre tagPre tagName : String) (index : Nat) :
    Http.getUrl etcdAddress etcdPre tagPre tagName index =
      "http://" ++ etcdAddress ++ "/v2/keys" ++ Http.keyPathSpec etcdPre tagPre tagName index ∧
    Http.putUrl etcdAddress etcdPre tagPre tagName index =
      Http.getUrl etcdAddress etcdPre tagPre tagName index ++ "?prevExist=false" := by
  constructor
  · simp [Http.getUrl, Http.etcdUrl, Http.keyPathSpec, String.append_assoc]
  · simp [Http.putUrl, Http.getUrl]

/-! ### C6: negative store outcomes are not errors -/

/-- C6: a 404 reply to a read yields `found=false` (the empty value) with
no error whatever the body; a 412 reply to a conditional create yields
`created=false` with no error; and both outcomes drive the loops forward:
a lost race advances the claim loop to the next slot, and an empty read
hands the scan off to the claim phase instead of aborting. -/
theorem negative_outcomes_not_errors :
    (∀ body, Http.get (.reply 404 body) = .ok "") ∧
    (∀ (mid url : String) (resp : Nat → Http.PutResp) (loc : Except String String),
      resp 0 = Http.PutResp.reply 412 loc → Http.put mid resp url = .ok false) ∧
    (∀ (p : Nat → Except String Bool) (i : Nat), i < maxMachineIndex → p i = .ok false →
      allocateIndexO p i = allocateIndexO p (i + 1)) ∧
    (∀ (mid : String) (g : Nat → Except String String) (p : Nat → Except String Bool)
      (i : Nat), i < maxMachineIndex → mid ≠ "" → g i = .ok "" →
      V1.findIndexAux mid g p i = allocateIndexO p i) := by
  refine ⟨fun body => rfl, ?_, ?_, ?_⟩
  · intro mid url resp loc h
    show Http.putLoop mid resp 0 url = .ok false
    rw [Http.putLoop]
    simp [maxEtcdRedirects, h]
  · intro p i hi hp
    conv_lhs => rw [allocateIndexO]
    simp [hi, hp]
  · intro mid g p i hi hm hg
    rw [V1.findIndexAux]
    simp [hi, hg, Ne.symm hm]

/-- Closed witness for C6 at concrete inputs. -/
theorem negative_outcomes_not_errors_witness :
    Http.get (.reply 404 (.error "x")) = .ok "" ∧
    Http.put "m" (fun _ => .reply 412 (.ok "l")) "u" = .ok false ∧
    allocateIndexO (fun _ => .ok false) 1 = allocateIndexO (fun _ => .ok false) 2 ∧
    V1.findIndexAux "m" (fun _ => .ok "") (fun _ => .ok false) 1 =
      allocateIndexO (fun _ => .ok false) 1 :=
  ⟨negative_outcomes_not_errors.1 _,
   negative_outcomes_not_errors.2.1 "m" "u" _ (.ok "l") rfl,
   negative_outcomes_not_errors.2.2.1 _ 1 (by decide) rfl,
   negative_outcomes_not_errors.2.2.2 "m" _ _ 1 (by decide) (by decide) rfl⟩

/-! ### C5: redirect bounding -/

/-- If every response up to the bound is a redirect with a good location,
the loop runs out of its redirect budget and fails. -/
theorem putLoop_all_redirects (mid : String) (resp : Nat → Http.PutResp)
    (locs : Nat → String)
    (hr : ∀ n, n ≤ maxEtcdRedirects → resp n = .reply 307 (.ok (locs n))) :
    ∀ (d r : Nat) (url : String), r + d = maxEtcdRedirects + 1 →
      Http.putLoop mid resp r url =
        .error (Http.tooMuchMsg (if d = 0 then url else locs maxEtcdRedirects)) := by
  intro d
  induction d with
  | zero =>
    intro r url hrd
    rw [Http.putLoop, dif_pos (show r > maxEtcdRedirects by omega)]
    simp
  | succ d ih =>
    intro r url hrd
    have hrle : r ≤ maxEtcdRedirects := by omega
    rw [Http.putLoop, dif_neg (show ¬ r > maxEtcdRedirects by omega), hr r hrle]
    have hih := ih (r + 1) (locs r) (by omega)
    simp only [Nat.succ_ne_zero, if_false, reduceIte, hih]
    rcases Nat.eq_zero_or_pos d with hd | hd
    · have hreq : r = maxEtcdRedirects := by omega
      simp [hd, hreq]
    · have hd0 : d ≠ 0 := by omega
      simp [hd0]

/-- C5: for every response sequence in which the store redirects (with a
good location) on each of the first `maxEtcdRedirects + 1` requests, `put`
terminates and returns the fatal too-many-redirects protocol error — never
`created=true` or `created=false`. -/
theorem redirect_bound_exceeded (mid url : String) (resp : Nat → Http.PutResp)
    (locs : Nat → String)
    (hr : ∀ n, n ≤ maxEtcdRedirects → resp n = .reply 307 (.ok (locs n))) :
    Http.put mid resp url = .error (Http.tooMuchMsg (locs maxEtcdRedirects)) := by
  have h := putLoop_all_redirects mid resp locs hr (maxEtcdRedirects + 1) 0 url (by omega)
  simpa [Http.put, Nat.succ_ne_zero] using h

/-- Closed witness for C5: a store that always answers with a redirect. -/
theorem redirect_bound_exceeded_witness :
    Http.put "m" (fun _ => .reply 307 (.ok "u")) "u0" = .error (Http.tooMuchMsg "u") :=
  redirect_bound_exceeded "m" "u0" _ (fun _ => "u") (fun _ _ => rfl)

end Cloudtag

namespace Cloudtag

theorem allocO_step_lost (p : Nat → Except String Bool) (i : Nat)
    (hi : i < maxMachineIndex) (h : p i = .ok false) :
    allocateIndexO p i = allocateIndexO p (i + 1) := by
  rw [allocateIndexO, dif_pos hi, h]

theorem allocO_range (p : Nat → Except String Bool) :
    ∀ i j, allocateIndexO p i = .ok j → i ≤ j ∧ j < maxMachineIndex := by
  intro i
  induction i using allocateIndexO.induct p with
  | case1 x hx e hpe =>
    intro j h
    rw [allocateIndexO, dif_pos hx, hpe] at h
    simp at h
  | case2 x hx hpt =>
    intro j h
    rw [allocateIndexO, dif_pos hx, hpt] at h
    simp at h
    omega
  | case3 x hx hpf ih =>
    intro j h
    rw [allocO_step_lost p x hx hpf] at h
    have := ih j h
    omega
  | case4 x hnx =>
    intro j h
    rw [allocateIndexO, dif_neg hnx] at h
    simp at h

theorem scanO1_range (mid : String) (g : Nat → Except String String)
    (p : Nat → Except String Bool) :
    ∀ i j, V1.findIndexAux mid g p i = .ok j → i ≤ j ∧ j < maxMachineIndex := by
  intro i
  induction i using V1.findIndexAux.induct mid g p with
  | case1 x hx e hge =>
    intro j h
    rw [V1.findIndexAux, dif_pos hx, hge] at h
    simp at h
  | case2 x hx hg =>
    intro j h
    rw [V1.findIndexAux, dif_pos hx, hg] at h
    simp at h
    omega
  | case3 x hx hg hne =>
    intro j h
    rw [V1.findIndexAux, dif_pos hx, hg] at h
    simp [hne] at h
    have := allocO_range p x j h
    omega
  | case4 x hx maybe hg hnm hne ih =>
    intro j h
    rw [V1.findIndexAux, dif_pos hx, hg] at h
    simp [hnm, hne] at h
    have := ih j h
    omega
  | case5 x hnx =>
    intro j h
    rw [V1.findIndexAux, dif_neg hnx] at h
    simp at h

/-! ### C8: index range postcondition -/

/-- C8: whenever `findIndex` returns without error, the returned index is
at least 1 and below `maxMachineIndex = 100`; a successful run never
returns 0 or an index at or above the bound. The scan and the claim phase
only ever move forward from slot 1, and both fail instead of running past
the bound. -/
theorem index_in_range (mid : String) (g : Nat → Except String String)
    (p : Nat → Except String Bool) (i : Nat)
    (h : V1.findIndex mid g p = .ok i) : 1 ≤ i ∧ i < maxMachineIndex :=
  scanO1_range mid g p 1 i h

/-- Closed witness for C8: an empty store allocates slot 1. -/
theorem index_in_range_witness : 1 ≤ 1 ∧ 1 < maxMachineIndex :=
  index_in_range "m" (fun _ => .ok "") (fun _ => .ok true) 1 (by
    rw [V1.findIndex, V1.findIndexAux, dif_pos (by decide : 1 < maxMachineIndex)]
    show (if "" = "m" then Except.ok 1 else if "" = "" then allocateIndexO _ 1 else _) = _
    rw [if_neg (by decide), if_pos rfl,
      allocateIndexO, dif_pos (by decide : 1 < maxMachineIndex)])

end Cloudtag

namespace Cloudtag

/-! ### Store-model unfolding lemmas -/

theorem storeAlloc_free (mid : String) (s : Store) (i : Nat)
    (hi : i < maxMachineIndex) (h : s i = none) :
    StoreM.allocateIndex mid s i =
      .ok ⟨i, fun j => if j = i then some mid else s j, [], [i]⟩ := by
  rw [StoreM.allocateIndex, dif_pos hi, StoreM.put, h]

theorem storeAlloc_lost (mid : String) (s : Store) (i : Nat) (v : String)
    (hi : i < maxMachineIndex) (h : s i = some v) :
    StoreM.allocateIndex mid s i =
      (StoreM.allocateIndex mid s (i + 1)).map
        (fun r => { r with writes := i :: r.writes }) := by
  rw [StoreM.allocateIndex, dif_pos hi, StoreM.put, h]

theorem storeAlloc_exhaust (mid : String) (s : Store) (i : Nat)
    (hi : ¬ i < maxMachineIndex) :
    StoreM.allocateIndex mid s i = .error allocErr := by
  rw [StoreM.allocateIndex, dif_neg hi]

theorem storeGet_some (s : Store) (i : Nat) (v : String) (h : s i = some v) :
    StoreM.get s i = v := by
  rw [StoreM.get, h]
  rfl

theorem storeGet_none (s : Store) (i : Nat) (h : s i = none) :
    StoreM.get s i = "" := by
  rw [StoreM.get, h]
  rfl

theorem storeScan_found (mid : String) (s : Store) (i : Nat)
    (hi : i < maxMachineIndex) (h : StoreM.get s i = mid) :
    StoreM.findIndexAux mid s i = .ok ⟨i, s, [i], []⟩ := by
  rw [StoreM.findIndexAux, dif_pos hi]
  simp [h]

theorem storeScan_handoff (mid : String) (s : Store) (i : Nat)
    (hi : i < maxMachineIndex) (hm : mid ≠ "") (h : StoreM.get s i = "") :
    StoreM.findIndexAux mid s i =
      (StoreM.allocateIndex mid s i).map (fun r => { r with reads := [i] }) := by
  rw [StoreM.findIndexAux, dif_pos hi]
  simp [h, Ne.symm hm]

theorem storeScan_next (mid : String) (s : Store) (i : Nat) (v : String)
    (hi : i < maxMachineIndex) (h : StoreM.get s i = v) (hnm : v ≠ mid) (hne : v ≠ "") :
    StoreM.findIndexAux mid s i =
      (StoreM.findIndexAux mid s (i + 1)).map
        (fun r => { r with reads := i :: r.reads }) := by
  rw [StoreM.findIndexAux, dif_pos hi]
  simp only [h, if_neg hnm, if_neg hne]

theorem storeScan_exhaust (mid : String) (s : Store) (i : Nat)
    (hi : ¬ i < maxMachineIndex) :
    StoreM.findIndexAux mid s i = .error findErr := by
  rw [StoreM.findIndexAux, dif_neg hi]

/-- Scanning across a block of slots owned by other machines only
prepends those slots to the read trace. -/
theorem scan_to (mid : String) (s : Store) (k : Nat) (hkm : k ≤ maxMachineIndex) :
    ∀ k0, k0 ≤ k →
      (∀ j, k0 ≤ j → j < k → ∃ v, s j = some v ∧ v ≠ mid ∧ v ≠ "") →
      StoreM.findIndexAux mid s k0 =
        (StoreM.findIndexAux mid s k).map
          (fun r => { r with reads := List.range' k0 (k - k0) ++ r.reads }) := by
  have main : ∀ d k0, k - k0 = d → k0 ≤ k →
      (∀ j, k0 ≤ j → j < k → ∃ v, s j = some v ∧ v ≠ mid ∧ v ≠ "") →
      StoreM.findIndexAux mid s k0 =
        (StoreM.findIndexAux mid s k).map
          (fun r => { r with reads := List.range' k0 (k - k0) ++ r.reads }) := by
    intro d
    induction d with
    | zero =>
      intro k0 hd hle _
      have hk0 : k0 = k := by omega
      subst hk0
      rw [hd]
      simp only [List.range'_zero, List.nil_append]
      exact (except_map_id _).symm
    | succ d ih =>
      intro k0 hd hle hocc
      have hk0 : k0 < k := by omega
      obtain ⟨v, hv, hnm, hne⟩ := hocc k0 le_rfl hk0
      rw [storeScan_next mid s k0 v (by omega) (storeGet_some s k0 v hv) hnm hne,
        ih (k0 + 1) (by omega) (by omega) (fun j hj1 hj2 => hocc j (by omega) hj2),
        except_map_map]
      congr 1
      funext r
      have harr : k - k0 = (k - (k0 + 1)) + 1 := by omega
      rw [harr, List.range'_succ]
      simp
  exact fun k0 h1 h2 => main (k - k0) k0 rfl h1 h2

end Cloudtag

namespace Cloudtag

theorem except_map_eq_ok {ε α β : Type} {f : α → β} {e : Except ε α} {b : β}
    (h : e.map f = .ok b) : ∃ a, e = .ok a ∧ b = f a := by
  cases e with
  | error e0 => simp [Except.map] at h
  | ok a =>
    refine ⟨a, rfl, ?_⟩
    simpa [Except.map] using h.symm

theorem storeGet_eq_some (s : Store) (i : Nat) (mid : String) (hm : mid ≠ "")
    (h : StoreM.get s i = mid) : s i = some mid := by
  cases hsi : s i with
  | none =>
    rw [storeGet_none s i hsi] at h
    exact absurd h.symm hm
  | some v =>
    rw [storeGet_some s i v hsi] at h
    subst h
    rfl

/-- A successful claim phase records `mid` as the owner of the returned
index, and that slot was absent in the store the phase started from. -/
theorem alloc_spec (mid : String) :
    ∀ (s : Store) (i : Nat) (r : StoreM.Res), StoreM.allocateIndex mid s i = .ok r →
      r.store r.index = some mid ∧ s r.index = none := by
  intro s i
  induction s, i using StoreM.allocateIndex.induct mid with
  | case1 s i hi s2 hput =>
    intro r h
    rw [StoreM.allocateIndex, dif_pos hi, hput] at h
    cases hsi : s i with
    | some v => rw [StoreM.put, hsi] at hput; simp at hput
    | none =>
      rw [StoreM.put, hsi] at hput
      have hs2 : s2 = fun j => if j = i then some mid else s j := by
        have := congrArg Prod.snd hput
        simpa using this.symm
      injection h with h'
      subst h'
      subst hs2
      constructor
      · simp
      · simpa using hsi
  | case2 s i hi s2 hput ih =>
    intro r h
    rw [StoreM.allocateIndex, dif_pos hi, hput] at h
    obtain ⟨r0, h0, hr⟩ := except_map_eq_ok h
    have hs2 : s2 = s := by
      cases hsi : s i with
      | some v =>
        rw [StoreM.put, hsi] at hput
        have := congrArg Prod.snd hput
        simpa using this.symm
      | none => rw [StoreM.put, hsi] at hput; simp at hput
    obtain ⟨ho, hn⟩ := ih r0 h0
    subst hr
    subst hs2
    exact ⟨ho, hn⟩
  | case3 s i hi =>
    intro r h
    rw [storeAlloc_exhaust mid s i hi] at h
    simp at h

/-- A successful scan returns an index the machine owns in the resulting
store, and that slot was, in the store the scan started from, either
already owned by the machine or absent. -/
theorem find_spec (mid : String) (hm : mid ≠ "") (s : Store) :
    ∀ (i : Nat) (r : StoreM.Res), StoreM.findIndexAux mid s i = .ok r →
      r.store r.index = some mid ∧ (s r.index = some mid ∨ s r.index = none) := by
  intro i
  induction i using StoreM.findIndexAux.induct mid s with
  | case1 x hx maybe hmx =>
    intro r h
    have hget : StoreM.get s x = mid := hmx
    rw [storeScan_found mid s x hx hget] at h
    injection h with h'
    subst h'
    have := storeGet_eq_some s x mid hm hget
    exact ⟨this, Or.inl this⟩
  | case2 x hx maybe hne hemp =>
    intro r h
    have hget : StoreM.get s x = "" := hemp
    rw [storeScan_handoff mid s x hx hm hget] at h
    obtain ⟨r0, h0, hr⟩ := except_map_eq_ok h
    obtain ⟨ho, hn⟩ := alloc_spec mid s x r0 h0
    subst hr
    exact ⟨ho, Or.inr hn⟩
  | case3 x hx maybe hne hnemp ih =>
    intro r h
    rw [storeScan_next mid s x (StoreM.get s x) hx rfl hne hnemp] at h
    obtain ⟨r0, h0, hr⟩ := except_map_eq_ok h
    obtain ⟨ho, hn⟩ := ih r0 h0
    subst hr
    exact ⟨ho, hn⟩
  | case4 x hnx =>
    intro r h
    rw [storeScan_exhaust mid s x hnx] at h
    simp at h

/-! ### C1: uniqueness of allocation -/

/-- C1: two distinct machine identities that each complete allocation
against the same store — the second running against the store state the
first left behind, there being no other writers — receive different
indices: the first run records its identity at the returned slot via the
atomic create-if-absent, no write ever overwrites an existing slot, and
the second run only returns a slot it owns or just created. -/
theorem allocation_unique (a b : String) (s : Store) (r1 r2 : StoreM.Res)
    (ha : a ≠ "") (hb : b ≠ "") (hab : a ≠ b)
    (h1 : StoreM.findIndex a s = .ok r1)
    (h2 : StoreM.findIndex b r1.store = .ok r2) :
    r1.index ≠ r2.index := by
  have o1 := (find_spec a ha s 1 r1 h1).1
  have o2 := (find_spec b hb r1.store 1 r2 h2).2
  intro he
  rw [← he] at o2
  rcases o2 with h | h
  · rw [o1] at h
    exact hab (Option.some.inj h)
  · rw [o1] at h
    simp at h

end Cloudtag

namespace Cloudtag

/-- Empty store for the C1 witness. -/
def wEmpty : Store := fun _ => none

/-- Store after machine `a` claims slot 1. -/
def w1Store : Store := fun j => if j = 1 then some "a" else wEmpty j

/-- Store after machine `b` then claims slot 2. -/
def w2Store : Store := fun j => if j = 2 then some "b" else w1Store j

/-- Result of the first witness run. -/
def wRes1 : StoreM.Res := ⟨1, w1Store, [1], [1]⟩

/-- Result of the second witness run. -/
def wRes2 : StoreM.Res := ⟨2, w2Store, [1, 2], [2]⟩

/-- Closed witness for C1: on an empty store, machine `a` allocates slot 1
and machine `b`, running next, allocates slot 2. -/
theorem allocation_unique_witness : wRes1.index ≠ wRes2.index :=
  allocation_unique "a" "b" wEmpty wRes1 wRes2 (by decide) (by decide) (by decide)
    (by
      rw [StoreM.findIndex,
        storeScan_handoff "a" wEmpty 1 (by decide) (by decide) (storeGet_none _ _ rfl),
        storeAlloc_free "a" wEmpty 1 (by decide) rfl]
      rfl)
    (by
      show StoreM.findIndex "b" w1Store = .ok wRes2
      rw [StoreM.findIndex,
        storeScan_next "b" w1Store 1 "a" (by decide) (storeGet_some _ _ _ rfl)
          (by decide) (by decide),
        storeScan_handoff "b" w1Store 2 (by decide) (by decide) (storeGet_none _ _ rfl),
        storeAlloc_free "b" w1Store 2 (by decide) rfl]
      rfl)

/-- The scan reads `[1, ..., k-1]` and then `k`: together `[1, ..., k]`. -/
theorem range'_concat_self (k : Nat) (h : 1 ≤ k) :
    List.range' 1 (k - 1) ++ [k] = List.range' 1 k := by
  have h2 := List.range'_1_concat 1 (k - 1)
  rw [show k - 1 + 1 = k by omega, show 1 + (k - 1) = k by omega] at h2
  exact h2.symm

/-! ### C2: idempotent rediscovery -/

/-- Store for the C2 counterexample: slot 1 is free and slot 2 holds the
machine's identity. -/
def cexStore : Store := fun j => if j = 2 then some "a" else none

/-- C2 as frozen is false on the code: the store holds identity `"a"` at
index 2 and no slot with value `"a"` at a lower index, yet `findIndex`
returns index 1 — not 2 — after performing one write attempt (it claims
the free lower slot 1 before ever reading slot 2). -/
theorem rediscovery_needs_occupied_lower_slots :
    cexStore 2 = some "a" ∧ cexStore 1 = none ∧
    (StoreM.findIndex "a" cexStore).toOption.map (fun r => (r.index, r.writes)) =
      some (1, [1]) ∧
    ((1, [1]) : Nat × List Nat) ≠ (2, []) := by
  refine ⟨rfl, rfl, ?_, by decide⟩
  rw [StoreM.findIndex,
    storeScan_handoff "a" cexStore 1 (by decide) (by decide) (storeGet_none _ _ rfl),
    storeAlloc_free "a" cexStore 1 (by decide) rfl]
  rfl

/-- C2 amended: when the store holds `mid` at slot `i` and every lower
slot is occupied by a nonempty value different from `mid`, the scan
rediscovers slot `i`: it returns `i` without error, reads slots `1..i`,
performs zero write attempts, and leaves the store unchanged — so a second
run starts from the same store and returns the same index again. -/
theorem rediscovery_idempotent (mid : String) (s : Store) (i : Nat)
    (h1 : 1 ≤ i) (h2 : i < maxMachineIndex) (hown : s i = some mid)
    (hlow : ∀ j, 1 ≤ j → j < i → ∃ v, s j = some v ∧ v ≠ mid ∧ v ≠ "") :
    StoreM.findIndex mid s = .ok ⟨i, s, List.range' 1 i, []⟩ := by
  rw [StoreM.findIndex, scan_to mid s i (le_of_lt h2) 1 h1 hlow,
    storeScan_found mid s i h2 (storeGet_some s i mid hown)]
  simp only [except_map_ok]
  rw [range'_concat_self i h1]

/-- Store for the C2 witness: slot 1 owned by another machine, slot 2
owned by `"a"`. -/
def wStoreC2 : Store := fun j => if j = 1 then some "x" else if j = 2 then some "a" else none

/-- Closed witness for C2 (amended): rediscovery of slot 2. -/
theorem rediscovery_idempotent_witness :
    StoreM.findIndex "a" wStoreC2 = .ok ⟨2, wStoreC2, List.range' 1 2, []⟩ :=
  rediscovery_idempotent "a" wStoreC2 2 (by decide) (by decide) rfl
    (fun j hj1 hj2 => by
      have hj : j = 1 := by omega
      subst hj
      exact ⟨"x", rfl, by decide, by decide⟩)

/-! ### C3: lowest-free-slot bias -/

/-- C3: with slots `1..k-1` owned by identities different from `mid` and
slot `k` free, and no other writers, `findIndex` reads slots `1..k` in
increasing order, hands off to the claim phase at `k`, claims it with one
conditional create, and returns index `k`. -/
theorem lowest_free_slot (mid : String) (s : Store) (k : Nat) (hm : mid ≠ "")
    (h1 : 1 ≤ k) (h2 : k < maxMachineIndex) (hfree : s k = none)
    (hlow : ∀ j, 1 ≤ j → j < k → ∃ v, s j = some v ∧ v ≠ mid ∧ v ≠ "") :
    StoreM.findIndex mid s =
      .ok ⟨k, fun j => if j = k then some mid else s j, List.range' 1 k, [k]⟩ := by
  rw [StoreM.findIndex, scan_to mid s k (le_of_lt h2) 1 h1 hlow,
    storeScan_handoff mid s k h2 hm (storeGet_none s k hfree),
    storeAlloc_free mid s k h2 hfree]
  simp only [except_map_ok]
  rw [range'_concat_self k h1]

/-- Store for the C3 witness: slot 1 owned by `"a"`, the rest free. -/
def wStoreC3 : Store := fun j => if j = 1 then some "a" else none

/-- Closed witness for C3: machine `"b"` is allocated slot 2. -/
theorem lowest_free_slot_witness :
    StoreM.findIndex "b" wStoreC3 =
      .ok ⟨2, fun j => if j = 2 then some "b" else wStoreC3 j, List.range' 1 2, [2]⟩ :=
  lowest_free_slot "b" wStoreC3 2 (by decide) (by decide) (by decide) rfl
    (fun j hj1 hj2 => by
      have hj : j = 1 := by omega
      subst hj
      exact ⟨"a", rfl, by decide, by decide⟩)

end Cloudtag

namespace Cloudtag

/-! ### C7: capacity exhaustion -/

/-- C7: when every slot in `[1, maxMachineIndex)` is owned by an identity
different from `mid` (nonempty, so none reads as free), `findIndex` fails
with the distinct capacity-exhaustion error naming the bound — it never
returns an index; likewise `allocateIndex` fails with its own exhaustion
error when every conditional create from `start` up to the bound loses
the race (every slot already exists). -/
theorem capacity_exhaustion (mid : String) (s s2 : Store) (start : Nat)
    (hocc : ∀ j, 1 ≤ j → j < maxMachineIndex → ∃ v, s j = some v ∧ v ≠ mid ∧ v ≠ "")
    (hocc2 : ∀ j, start ≤ j → j < maxMachineIndex → ∃ v, s2 j = some v) :
    StoreM.findIndex mid s = .error findErr ∧
      StoreM.allocateIndex mid s2 start = .error allocErr := by
  constructor
  · rw [StoreM.findIndex,
      scan_to mid s maxMachineIndex le_rfl 1 (by decide) hocc,
      storeScan_exhaust mid s maxMachineIndex (lt_irrefl _)]
    rfl
  · have main : ∀ (d st : Nat), maxMachineIndex - st = d →
        (∀ j, st ≤ j → j < maxMachineIndex → ∃ v, s2 j = some v) →
        StoreM.allocateIndex mid s2 st = .error allocErr := by
      intro d
      induction d with
      | zero =>
        intro st hd _
        exact storeAlloc_exhaust mid s2 st (by omega)
      | succ d ih =>
        intro st hd hocc3
        have hst : st < maxMachineIndex := by omega
        obtain ⟨v, hv⟩ := hocc3 st le_rfl hst
        rw [storeAlloc_lost mid s2 st v hst hv,
          ih (st + 1) (by omega) (fun j hj1 hj2 => hocc3 j (by omega) hj2)]
        rfl
    exact main (maxMachineIndex - start) start rfl hocc2

/-- A fully occupied store for the C7 witness. -/
def fullStore : Store := fun _ => some "x"

/-- Closed witness for C7: on a fully occupied store, machine `"m"` gets
the exhaustion errors from both phases. -/
theorem capacity_exhaustion_witness :
    StoreM.findIndex "m" fullStore = .error findErr ∧
      StoreM.allocateIndex "m" fullStore 1 = .error allocErr :=
  capacity_exhaustion "m" fullStore fullStore 1
    (fun j hj1 hj2 => ⟨"x", rfl, by decide, by decide⟩)
    (fun j hj1 hj2 => ⟨"x", rfl⟩)

/-! ### C10: an existing empty-valued slot is treated as absent -/

/-- C10: `get` encodes absence as the empty string, so a slot that exists
with the empty string as its recorded value is classified by the scan
exactly like an absent slot: with slots `1..i-1` owned by others and slot
`i` holding the empty value, `findIndex` hands off to the claim phase at
`i`, exactly as it does on the store with slot `i` removed, and the value
`get` reports for slot `i` is the same in both stores. -/
theorem empty_value_slot_as_absent (mid : String) (s : Store) (i : Nat)
    (hm : mid ≠ "") (h1 : 1 ≤ i) (h2 : i < maxMachineIndex)
    (hempty : s i = some "")
    (hlow : ∀ j, 1 ≤ j → j < i → ∃ v, s j = some v ∧ v ≠ mid ∧ v ≠ "") :
    StoreM.findIndex mid s =
      (StoreM.allocateIndex mid s i).map
        (fun r => { r with reads := List.range' 1 i }) ∧
    StoreM.findIndex mid (fun j => if j = i then none else s j) =
      (StoreM.allocateIndex mid (fun j => if j = i then none else s j) i).map
        (fun r => { r with reads := List.range' 1 i }) ∧
    StoreM.get s i = StoreM.get (fun j => if j = i then none else s j) i := by
  refine ⟨?_, ?_, ?_⟩
  · rw [StoreM.findIndex, scan_to mid s i (le_of_lt h2) 1 h1 hlow,
      storeScan_handoff mid s i h2 hm (storeGet_some s i "" hempty),
      except_map_map]
    congr 1
    funext r
    show ({ r with reads := List.range' 1 (i - 1) ++ [i] } : StoreM.Res) = _
    rw [range'_concat_self i h1]
  · have hlow2 : ∀ j, 1 ≤ j → j < i →
        ∃ v, (fun j => if j = i then none else s j) j = some v ∧ v ≠ mid ∧ v ≠ "" := by
      intro j hj1 hj2
      obtain ⟨v, hv, hvm, hve⟩ := hlow j hj1 hj2
      exact ⟨v, by simp [show j ≠ i by omega, hv], hvm, hve⟩
    rw [StoreM.findIndex,
      scan_to mid (fun j => if j = i then none else s j) i (le_of_lt h2) 1 h1 hlow2,
      storeScan_handoff mid (fun j => if j = i then none else s j) i h2 hm
        (storeGet_none _ i (by simp)),
      except_map_map]
    congr 1
    funext r
    show ({ r with reads := List.range' 1 (i - 1) ++ [i] } : StoreM.Res) = _
    rw [range'_concat_self i h1]
  · rw [storeGet_some s i "" hempty, storeGet_none _ i (by simp)]

/-- Store for the C10 witness: slot 1 owned, slot 2 exists with the empty
value. -/
def wStoreC10 : Store :=
  fun j => if j = 1 then some "x" else if j = 2 then some "" else none

/-- Closed witness for C10 at the concrete store. -/
theorem empty_value_slot_as_absent_witness :
    StoreM.findIndex "m" wStoreC10 =
      (StoreM.allocateIndex "m" wStoreC10 2).map
        (fun r => { r with reads := List.range' 1 2 }) ∧
    StoreM.findIndex "m" (fun j => if j = 2 then none else wStoreC10 j) =
      (StoreM.allocateIndex "m" (fun j => if j = 2 then none else wStoreC10 j) 2).map
        (fun r => { r with reads := List.range' 1 2 }) ∧
    StoreM.get wStoreC10 2 = StoreM.get (fun j => if j = 2 then none else wStoreC10 j) 2 :=
  empty_value_slot_as_absent "m" wStoreC10 2 (by decide) (by decide) (by decide) rfl
    (fun j hj1 hj2 => by
      have hj : j = 1 := by omega
      subst hj
      exact ⟨"x", rfl, by decide, by decide⟩)

end Cloudtag
